import Mathlib

/-!
Verification of the Hit4Power coaching web application (`src/app/main.py`).

The application is a set of FastAPI route handlers over a SQLite store with
six tables (instructors, players, metrics, notes, stars, shared_drills),
session-based authentication, flash messages, file uploads, and a Twilio SMS
gateway.  Each handler is embedded below as a pure function from its inputs
(session principal, store state, form fields, environment settings, and the
outputs of the random generator `secrets.token_hex`, passed in explicitly as
byte lists) to an `HOut` record capturing the HTTP response, the post-state of
the store, the flash message set by the handler, the SMS messages handed to
the gateway, and any session-user update.

Conventions of the embedding:
  * SQLite autoincrement ids and `datetime.utcnow` timestamps are modelled by
    a single monotone counter `Store.tick`: each inserted row receives the
    current tick as both its id and its creation time, and the tick advances.
  * A `UNIQUE` column constraint is modelled at commit time: an insert whose
    code already exists yields `HResp.integrityError` (the unhandled
    `IntegrityError` of SQLAlchemy, an HTTP 500) and the transaction is
    rolled back, leaving the table unchanged.
  * Python truthiness of optional strings (`phone or ""`, `if name:`) is
    modelled by treating `""` like an absent value exactly where the source
    does.
  * `Metric.exit_velocity` is a float in the source; no claim computes with
    it, so it is carried here as an opaque `Int` value, passed through
    unchanged.
-/

/-- One hexadecimal digit character, lowercase, as produced by Python's
`secrets.token_hex`. -/
def hexDigit (n : Nat) : Char :=
  if n < 10 then Char.ofNat (48 + n) else Char.ofNat (87 + n)

/-- The two hex characters of one byte. -/
def byteHex (b : Nat) : List Char :=
  [hexDigit (b / 16 % 16), hexDigit (b % 16)]

/-- `secrets.token_hex` applied to the given random bytes: each byte becomes
two lowercase hex characters. -/
def token_hex (bytes : List Nat) : String :=
  ⟨bytes.flatMap byteHex⟩

/-- Python `str.upper` on ASCII strings. -/
def pyUpper (s : String) : String :=
  ⟨s.data.map Char.toUpper⟩

/-- Python `str.lower` on ASCII strings. -/
def pyLower (s : String) : String :=
  ⟨s.data.map Char.toLower⟩

/-- Python `str.strip()`: drop whitespace from both ends.  (Implemented on
the character list so that it evaluates by kernel reduction.) -/
def pyStrip (s : String) : String :=
  ⟨((s.data.dropWhile Char.isWhitespace).reverse.dropWhile Char.isWhitespace).reverse⟩

/-- A character that may appear in an uppercased hex token: a decimal digit
or one of `A`–`F`. -/
def isUpperHex (c : Char) : Bool :=
  c.isDigit || ('A' ≤ c && c ≤ 'F')

/-- Python `str.isdigit` restricted to ASCII: true iff the string is
non-empty and all characters are decimal digits. -/
def isDigits (s : String) : Bool :=
  !s.isEmpty && s.data.all (·.isDigit)

/-- Python `int(...)` on a digits-only string. -/
def parseDigits (s : String) : Nat :=
  s.data.foldl (fun a c => a * 10 + (c.toNat - 48)) 0

/-- The extension part of `os.path.splitext` for a bare file name: the suffix
starting at the last dot, where the leading dots of a name never begin an
extension (`".bashrc"` has no extension). -/
def splitextExt (s : String) : String :=
  let cs := s.data
  let lead := cs.takeWhile (· = '.')
  let rest := cs.dropWhile (· = '.')
  let rev := rest.reverse
  let after := rev.takeWhile (· ≠ '.')
  if after.length < rev.length then ⟨'.' :: after.reverse⟩
  else
    -- no dot in the remainder: the whole input is root, no extension
    let _ := lead
    ""

/-- An authenticated principal stored in `request.session["user"]`:
`{type, id, name}`. -/
inductive Principal where
  | player (id : Nat) (name : String)
  | instructor (id : Nat) (name : String)
deriving Repr, DecidableEq

/-- A flash message `{type, msg}` attached to the session. -/
structure Flash where
  kind : String
  msg : String
deriving Repr, DecidableEq

/-- An SMS message handed to the Twilio gateway
(`messages.create(body=..., from_=..., to=...)`). -/
structure Sms where
  body : String
  sender : String
  dest : String
deriving Repr, DecidableEq

/-- Row of table `instructors`. -/
structure InstructorR where
  id : Nat
  name : String
  code : String
  createdAt : Nat
deriving Repr, DecidableEq

/-- Row of table `players`. -/
structure PlayerR where
  id : Nat
  name : String
  age : Option Int
  code : String
  phone : String
  photoPath : Option String
  createdAt : Nat
deriving Repr, DecidableEq

/-- Row of table `metrics`. -/
structure MetricR where
  id : Nat
  playerId : Nat
  createdAt : Nat
  exitVelocity : Int
deriving Repr, DecidableEq

/-- Row of table `notes`. -/
structure NoteR where
  id : Nat
  playerId : Nat
  instructorId : Nat
  text : String
  sharedWithPlayer : Bool
  createdAt : Nat
deriving Repr, DecidableEq

/-- Row of table `stars` (unique per `(instructor_id, player_id)`). -/
structure StarR where
  id : Nat
  instructorId : Nat
  playerId : Nat
  createdAt : Nat
deriving Repr, DecidableEq

/-- Row of table `shared_drills`. -/
structure SharedDrillR where
  id : Nat
  playerId : Nat
  instructorId : Nat
  filename : String
  title : Option String
  sentAt : Nat
deriving Repr, DecidableEq

/-- The persistence store: the six tables, the filesystem areas for uploaded
photo/drill files (by stored file name), and the id/time tick. -/
structure Store where
  instructors : List InstructorR := []
  players : List PlayerR := []
  metrics : List MetricR := []
  notes : List NoteR := []
  stars : List StarR := []
  drills : List SharedDrillR := []
  files : List String := []
  tick : Nat := 0
deriving Repr, DecidableEq

/-- The Twilio environment settings (`TWILIO_ACCOUNT_SID`,
`TWILIO_AUTH_TOKEN`, `TWILIO_FROM`); an unset variable is the empty
string, which is falsy in the source's `if sid and tok and frm` checks. -/
structure Env where
  sid : String
  tok : String
  frm : String
deriving Repr, DecidableEq

/-- `all(os.getenv(k) for k in [...])`: every Twilio setting is present and
non-empty. -/
def smsReady (e : Env) : Bool :=
  e.sid ≠ "" && e.tok ≠ "" && e.frm ≠ ""

/-- The possible handler responses: the 401 `{ok:false,error:"Unauthorized"}`
JSON, a 303 redirect, the star-toggle `{ok:true,active,count}` JSON, or an
unhandled `IntegrityError` (HTTP 500). -/
inductive HResp where
  | unauthorized
  | redirect (loc : String)
  | starJson (active : Bool) (count : Nat)
  | integrityError
deriving Repr, DecidableEq

/-- The observable outcome of one handler invocation: response, post-state of
the store, flash message set by the handler (`none` = untouched), SMS
messages handed to the gateway, and the session-user update (`none` =
untouched, `some u` = `session["user"]` set to `u`, with `some none` the
`session.clear()` of logout). -/
structure HOut where
  resp : HResp
  store : Store
  flash : Option Flash
  sent : List Sms
  setUser : Option (Option Principal)
deriving Repr, DecidableEq

/-- The early return shared by every guarded handler:
`JSONResponse({"ok":False,"error":"Unauthorized"}, status_code=401)` is sent
before the handler has touched the store, the flash, the gateway, or the
session. -/
def unauth (s : Store) : HOut :=
  ⟨.unauthorized, s, none, [], none⟩

/-- `u and u.get("type") == "instructor"`. -/
def isInstr : Option Principal → Bool
  | some (.instructor _ _) => true
  | _ => false

/-- Delete the row returned by `.first()`: remove the first element of the
list satisfying the predicate (`s.delete(ex)`). -/
def removeFirst (p : α → Bool) : List α → List α
  | [] => []
  | x :: xs => if p x then xs else x :: removeFirst p xs

/-- One parsed CSV row, as handed over by the `csv.DictReader` collaborator:
an association list from header name to cell value. -/
def Row := List (String × String)

/-- `row.get(k)`. -/
def rowGet (r : Row) (k : String) : Option String :=
  (r.find? (fun kv => kv.1 == k)).map (·.2)

/-- `(row.get(k1) or row.get(k2) or "")`: the first truthy (present and
non-empty) value, else the empty string. -/
def orGet (r : Row) (k1 k2 : String) : String :=
  let v1 := (rowGet r k1).getD ""
  if v1 ≠ "" then v1 else (rowGet r k2).getD ""

/-- Commit-time check for a batch insert of players with freshly generated
codes: every new code must be absent from the existing column and from the
rest of the batch, or the `UNIQUE` constraint fires. -/
def freshCodes (existing : List String) : List String → Bool
  | [] => true
  | c :: cs => !existing.contains c && !cs.contains c && freshCodes existing cs

/-- The shared-note query of the player dashboard (`GET /`):
`Note.filter_by(player_id=..., shared_with_player=True)
.order_by(Note.created_at.desc()).first()`, i.e. the note with the greatest
creation time among the player's shared notes. -/
def latestByCreated : List NoteR → Option NoteR
  | [] => none
  | n :: ns =>
    match latestByCreated ns with
    | none => some n
    | some m => if n.createdAt < m.createdAt then some m else some n

/-- The note shown on the player dashboard for player `pid`
(`src/app/main.py` line 137). -/
def dashboard_shared_note (s : Store) (pid : Nat) : Option NoteR :=
  latestByCreated (s.notes.filter (fun n => n.playerId == pid && n.sharedWithPlayer))

/-- `POST /login_player` (`src/app/main.py` lines 145-153). -/
def login_player (s : Store) (code : String) : HOut :=
  match s.players.find? (fun p => p.code == pyStrip code) with
  | none => ⟨.redirect "/", s, some ⟨"warn", "Invalid player code."⟩, [], none⟩
  | some p => ⟨.redirect "/", s, none, [], some (some (.player p.id p.name))⟩

/-- `ensure_master` (`src/app/main.py` lines 113-116), run by
`GET /instructor`: if no instructor row carries the configured master code,
insert one named "Head Coach" whose code is the master code itself. -/
def ensure_master (s : Store) (master : String) : Store :=
  match s.instructors.find? (fun i => i.code == master) with
  | some _ => s
  | none =>
    { s with instructors := s.instructors ++ [⟨s.tick, "Head Coach", master, s.tick⟩],
             tick := s.tick + 1 }

/-- Truthiness of the optional `name` form field. -/
def nameTruthy : Option String → Bool
  | some s => s ≠ ""
  | none => false

/-- `(name or "Coach")`. -/
def nameOrCoach : Option String → String
  | some s => if s ≠ "" then s else "Coach"
  | none => "Coach"

/-- `POST /login_instructor` (`src/app/main.py` lines 179-194).  `bytes` is
the output of the random generator consumed by `secrets.token_hex(3)` in the
bootstrap branch. -/
def login_instructor (s : Store) (code : String) (name : Option String)
    (master : String) (bytes : List Nat) : HOut :=
  let code := pyStrip code
  match s.instructors.find? (fun i => i.code == code) with
  | some ins => ⟨.redirect "/instructor", s, none, [], some (some (.instructor ins.id ins.name))⟩
  | none =>
    if code = master && nameTruthy name then
      let gen := pyUpper (token_hex bytes)
      let nm := pyStrip (nameOrCoach name)
      if (s.instructors.map (·.code)).contains gen then
        -- the UNIQUE constraint on instructors.code fires at s.commit()
        ⟨.integrityError, s, none, [], none⟩
      else
        ⟨.redirect "/instructor",
         { s with instructors := s.instructors ++ [⟨s.tick, nm, gen, s.tick⟩],
                  tick := s.tick + 1 },
         some ⟨"ok", "Instructor created. Your login code: " ++ gen⟩, [],
         some (some (.instructor s.tick nm))⟩
    else
      ⟨.redirect "/instructor", s, some ⟨"warn", "Invalid instructor code."⟩, [], none⟩

/-- `POST /logout` (`src/app/main.py` lines 196-198). -/
def logout (s : Store) : HOut :=
  ⟨.redirect "/", s, none, [], some none⟩

/-- `int(age) if age else None`: Python treats both `None` and `0` as falsy. -/
def ageOrNone : Option Int → Option Int
  | some a => if a = 0 then none else some a
  | none => none

/-- `POST /players/create` (`src/app/main.py` lines 201-218).  `codeBytes`
feeds the login-code generator `secrets.token_hex(3)`, `photoBytes` the
photo-file-name generator `secrets.token_hex(8)`; `photo` is the uploaded
file's client name, if a file was attached. -/
def create_player (u : Option Principal) (s : Store) (name : String)
    (age : Option Int) (phone : Option String) (photo : Option String)
    (codeBytes photoBytes : List Nat) : HOut :=
  match u with
  | some (.instructor _ _) =>
    let code := pyUpper (token_hex codeBytes)
    let base : PlayerR :=
      ⟨s.tick, pyStrip name, ageOrNone age, code,
       pyStrip (phone.getD ""), none, s.tick⟩
    -- the photo file is written to disk before the database commit
    let photoRes : Option String × List String :=
      match photo with
      | some f =>
        if f ≠ "" then
          let ext := let e := pyLower (splitextExt f); if e = "" then ".jpg" else e
          let fname := "p_" ++ token_hex photoBytes ++ ext
          (some ("/static/players/" ++ fname), s.files ++ [fname])
        else (none, s.files)
      | none => (none, s.files)
    if (s.players.map (·.code)).contains code then
      -- UNIQUE constraint on players.code: the commit raises, the row is not
      -- inserted, but the photo file already written stays on disk
      ⟨.integrityError, { s with files := photoRes.2 }, none, [], none⟩
    else
      ⟨.redirect "/instructor",
       { s with players := s.players ++ [{ base with photoPath := photoRes.1 }],
                files := photoRes.2, tick := s.tick + 1 },
       some ⟨"ok", "Player created. Login code: " ++ code⟩, [], none⟩
  | _ => unauth s

/-- `name = (row.get("name") or row.get("Name") or "").strip()`. -/
def csvName (r : Row) : String :=
  pyStrip (orGet r "name" "Name")

/-- `age = int(age_raw) if age_raw.isdigit() else None`. -/
def csvAge (r : Row) : Option Int :=
  let ageRaw := pyStrip (orGet r "age" "Age")
  if isDigits ageRaw then some (Int.ofNat (parseDigits ageRaw)) else none

/-- `phone = (row.get("phone") or row.get("Phone") or "").strip()`. -/
def csvPhone (r : Row) : String :=
  pyStrip (orGet r "phone" "Phone")

/-- The players built by the row loop of `POST /players/bulk_csv`
(`src/app/main.py` lines 229-236): rows whose name is empty after the
`name`/`Name` lookup and trim are skipped (`if not name: continue`); `gen k`
is the random input of the `k`-th call of `secrets.token_hex(3)`. -/
def bulkNew (gen : Nat → List Nat) (tick k : Nat) : List Row → List PlayerR
  | [] => []
  | r :: rs =>
    if csvName r = "" then bulkNew gen tick k rs
    else
      ⟨tick, csvName r, csvAge r, pyUpper (token_hex (gen k)), csvPhone r, none, tick⟩
        :: bulkNew gen (tick + 1) (k + 1) rs

/-- `POST /players/bulk_csv` (`src/app/main.py` lines 220-239).  The CSV
collaborator's output is the row list; all inserts share one commit, so a
code collision anywhere in the batch rolls the whole import back. -/
def bulk_csv (u : Option Principal) (s : Store) (rows : List Row)
    (gen : Nat → List Nat) : HOut :=
  match u with
  | some (.instructor _ _) =>
    let news := bulkNew gen s.tick 0 rows
    if freshCodes (s.players.map (·.code)) (news.map (·.code)) then
      ⟨.redirect "/instructor",
       { s with players := s.players ++ news, tick := s.tick + news.length },
       some ⟨"ok", "Imported " ++ toString news.length ++ " players."⟩, [], none⟩
    else
      ⟨.integrityError, s, none, [], none⟩
  | _ => unauth s

/-- `POST /metrics/add` (`src/app/main.py` lines 241-248). -/
def add_metric (u : Option Principal) (s : Store) (playerId : Nat)
    (exitVelocity : Int) : HOut :=
  match u with
  | some (.instructor _ _) =>
    ⟨.redirect "/instructor",
     { s with metrics := s.metrics ++ [⟨s.tick, playerId, s.tick, exitVelocity⟩],
              tick := s.tick + 1 },
     none, [], none⟩
  | _ => unauth s

/-- `POST /notes/add` (`src/app/main.py` lines 250-258). -/
def add_note (u : Option Principal) (s : Store) (playerId : Nat)
    (text : String) (share : Bool) : HOut :=
  match u with
  | some (.instructor iid _) =>
    ⟨.redirect "/instructor",
     { s with notes := s.notes ++ [⟨s.tick, playerId, iid, pyStrip text, share, s.tick⟩],
              tick := s.tick + 1 },
     some ⟨"ok", "Note saved."⟩, [], none⟩
  | _ => unauth s

/-- `POST /star/toggle` (`src/app/main.py` lines 260-271): delete the star
row if the pair has one, else insert one; answer with the new active flag and
the caller's star count. -/
def toggle_star (u : Option Principal) (s : Store) (playerId : Nat) : HOut :=
  match u with
  | some (.instructor iid _) =>
    match s.stars.find? (fun st => st.instructorId == iid && st.playerId == playerId) with
    | some _ =>
      let s' := { s with
        stars := removeFirst (fun st => st.instructorId == iid && st.playerId == playerId) s.stars }
      ⟨.starJson false (s'.stars.countP (fun st => st.instructorId == iid)), s', none, [], none⟩
    | none =>
      let s' := { s with stars := s.stars ++ [⟨s.tick, iid, playerId, s.tick⟩],
                         tick := s.tick + 1 }
      ⟨.starJson true (s'.stars.countP (fun st => st.instructorId == iid)), s', none, [], none⟩
  | _ => unauth s

/-- `POST /drills/upload` (`src/app/main.py` lines 273-282): store the file
under a generated name in the drills area. -/
def upload_drill (u : Option Principal) (s : Store) (filename : String)
    (tokBytes : List Nat) : HOut :=
  match u with
  | some (.instructor _ _) =>
    let fname := "drill_" ++ token_hex tokBytes ++ pyLower (splitextExt filename)
    ⟨.redirect "/instructor", { s with files := s.files ++ [fname] }, none, [], none⟩
  | _ => unauth s

/-- `POST /drills/send` (`src/app/main.py` lines 284-301): append the
SharedDrill row; then, best-effort, text the player — any gateway exception
(`sendErr = some e`) is swallowed by `except Exception: pass`. -/
def send_drill (u : Option Principal) (s : Store) (env : Env)
    (sendErr : Option String) (playerId : Nat) (filename : String)
    (title : Option String) (textAlso : Bool) : HOut :=
  match u with
  | some (.instructor iid _) =>
    let s1 := { s with
      drills := s.drills ++ [⟨s.tick, playerId, iid, filename, title, s.tick⟩],
      tick := s.tick + 1 }
    let sent : List Sms :=
      if textAlso then
        if smsReady env then
          match s1.players.find? (fun p => p.id == playerId) with
          | some pl =>
            if pl.phone ≠ "" then
              match sendErr with
              | some _ => []   -- exception raised and silently swallowed
              | none =>
                let label := match title with
                  | some t => if t ≠ "" then t else filename
                  | none => filename
                [⟨"Coach shared a drill: " ++ label, env.frm, pl.phone⟩]
            else []
          | none => []
        else []
      else []
    ⟨.redirect "/instructor", s1, some ⟨"ok", "Drill shared with player."⟩, sent, none⟩
  | _ => unauth s

/-- `POST /text/send` (`src/app/main.py` lines 303-320).  Note: the source
performs no session check here — the parameter `u` is accepted but never
inspected. -/
def text_player (u : Option Principal) (s : Store) (env : Env)
    (sendErr : Option String) (playerId : Nat) (body : String) : HOut :=
  let _ := u
  if !smsReady env then
    ⟨.redirect "/instructor", s, some ⟨"warn", "Twilio not configured."⟩, [], none⟩
  else
    match s.players.find? (fun p => p.id == playerId) with
    | some pl =>
      if pl.phone ≠ "" then
        match sendErr with
        | some e => ⟨.redirect "/instructor", s, some ⟨"warn", "Text failed: " ++ e⟩, [], none⟩
        | none => ⟨.redirect "/instructor", s, some ⟨"ok", "Text sent."⟩,
                   [⟨body, env.frm, pl.phone⟩], none⟩
      else ⟨.redirect "/instructor", s, some ⟨"warn", "Player phone missing."⟩, [], none⟩
    | none => ⟨.redirect "/instructor", s, some ⟨"warn", "Player phone missing."⟩, [], none⟩

/-- Code uniqueness across the two credential columns: no two players and no
two instructors share a code. -/
def CodesUnique (s : Store) : Prop :=
  (s.players.map (·.code)).Nodup ∧ (s.instructors.map (·.code)).Nodup

/-- The `UNIQUE (instructor_id, player_id)` constraint of the stars table: at
most one row per pair. -/
def StarUnique (s : Store) : Prop :=
  ∀ i p, s.stars.countP (fun st => st.instructorId == i && st.playerId == p) ≤ 1

/-- Clock soundness of a store: every note was created strictly before the
current tick (rows never carry timestamps from the future). -/
def TimeOk (s : Store) : Prop :=
  ∀ n ∈ s.notes, n.createdAt < s.tick

/-- One inbound request, with every input of its handler. -/
inductive Op where
  | opCreatePlayer (u : Option Principal) (nm : String) (age : Option Int)
      (ph : Option String) (photo : Option String) (cb tb : List Nat)
  | opBulkCsv (u : Option Principal) (rows : List Row) (gen : Nat → List Nat)
  | opAddMetric (u : Option Principal) (pid : Nat) (ev : Int)
  | opAddNote (u : Option Principal) (pid : Nat) (txt : String) (share : Bool)
  | opToggleStar (u : Option Principal) (pid : Nat)
  | opUploadDrill (u : Option Principal) (fn : String) (tb : List Nat)
  | opSendDrill (u : Option Principal) (env : Env) (err : Option String)
      (pid : Nat) (fn : String) (title : Option String) (alsoText : Bool)
  | opTextPlayer (u : Option Principal) (env : Env) (err : Option String)
      (pid : Nat) (body : String)
  | opLoginPlayer (code : String)
  | opLoginInstructor (code : String) (name : Option String) (master : String)
      (bytes : List Nat)
  | opLogout
  | opVisitInstructorPage (master : String)

/-- The store reached after handling one request (on a constraint violation
the transaction is rolled back, so the handler's `HOut.store` is already the
post-state in every case). -/
def applyOp (s : Store) : Op → Store
  | .opCreatePlayer u nm age ph photo cb tb => (create_player u s nm age ph photo cb tb).store
  | .opBulkCsv u rows gen => (bulk_csv u s rows gen).store
  | .opAddMetric u pid ev => (add_metric u s pid ev).store
  | .opAddNote u pid txt share => (add_note u s pid txt share).store
  | .opToggleStar u pid => (toggle_star u s pid).store
  | .opUploadDrill u fn tb => (upload_drill u s fn tb).store
  | .opSendDrill u env err pid fn title alsoText =>
      (send_drill u s env err pid fn title alsoText).store
  | .opTextPlayer u env err pid body => (text_player u s env err pid body).store
  | .opLoginPlayer code => (login_player s code).store
  | .opLoginInstructor code name master bytes =>
      (login_instructor s code name master bytes).store
  | .opLogout => (logout s).store
  | .opVisitInstructorPage master => ensure_master s master

/-- The store reached after a whole request sequence. -/
def applyOps (s : Store) (ops : List Op) : Store :=
  ops.foldl applyOp s

theorem find?_append_of_none (p : α → Bool) (l₂ : List α) :
    ∀ l₁ : List α, l₁.find? p = none → (l₁ ++ l₂).find? p = l₂.find? p := by
  intro l₁
  induction l₁ with
  | nil => intro _; rfl
  | cons y ys ih =>
    intro h
    by_cases hy : p y = true
    · rw [List.find?_cons_of_pos _ hy] at h; exact absurd h (by simp)
    · rw [List.find?_cons_of_neg _ (by simpa using hy)] at h
      simpa [List.find?_cons_of_neg _ (by simpa using hy : ¬ p y = true)] using ih h

theorem removeFirst_countP (p q : α → Bool) (x : α) (hq : q x = true) :
    ∀ l : List α, l.find? p = some x →
      (removeFirst p l).countP q + 1 = l.countP q := by
  intro l
  induction l with
  | nil => intro h; simp [List.find?] at h
  | cons y ys ih =>
    intro h
    by_cases hy : p y = true
    · rw [List.find?_cons_of_pos _ hy] at h
      obtain rfl : x = y := by injection h with h'; exact h'.symm
      simp [removeFirst, hy, List.countP_cons, hq]
    · rw [List.find?_cons_of_neg _ (by simpa using hy)] at h
      have := ih h
      simp only [removeFirst, if_neg hy, List.countP_cons]
      omega

theorem countP_zero_find?_none (p : α → Bool) (l : List α)
    (h : l.countP p = 0) : l.find? p = none := by
  rw [List.find?_eq_none]
  intro x hx hpx
  have : 0 < l.countP p := List.countP_pos_iff.mpr ⟨x, hx, hpx⟩
  omega

theorem find?_some_countP_pos (p : α → Bool) (l : List α) (x : α)
    (h : l.find? p = some x) : 0 < l.countP p :=
  List.countP_pos_iff.mpr ⟨x, List.mem_of_find?_eq_some h, List.find?_some h⟩

theorem freshCodes_spec (ex : List String) :
    ∀ cs : List String, freshCodes ex cs = true →
      cs.Nodup ∧ ∀ c ∈ cs, c ∉ ex := by
  intro cs
  induction cs with
  | nil => intro _; simp
  | cons c cs ih =>
    intro h
    simp only [freshCodes, Bool.and_eq_true, Bool.not_eq_true'] at h
    obtain ⟨⟨h1, h2⟩, h3⟩ := h
    obtain ⟨hn, hf⟩ := ih h3
    simp only [List.contains_eq_any_beq, List.any_eq_false] at h1 h2
    have h1' : c ∉ ex := fun hc => h1 c hc (by simp)
    have h2' : c ∉ cs := fun hc => h2 c hc (by simp)
    refine ⟨List.nodup_cons.mpr ⟨h2', hn⟩, ?_⟩
    intro d hd
    rcases List.mem_cons.mp hd with rfl | hd'
    · exact h1'
    · exact hf d hd'

/-- C1. Every mutating domain operation — CreatePlayer, BulkImportPlayers,
RecordMetric, AddNote, ToggleStar, UploadDrillAsset, ShareDrill — invoked
from a session that carries no identity or a non-Instructor identity answers
the `Unauthorized` JSON response and performs no side effect at all: the
store (all six tables and both file areas) is unchanged, no flash is set, no
SMS is sent, and the session is untouched. -/
theorem mutating_ops_require_instructor (u : Option Principal) (s : Store)
    (hu : isInstr u = false)
    (nm : String) (age : Option Int) (ph : Option String) (photo : Option String)
    (cb tb : List Nat) (rows : List Row) (gen : Nat → List Nat)
    (pid : Nat) (ev : Int) (txt : String) (share : Bool) (fn : String)
    (title : Option String) (alsoText : Bool) (env : Env) (err : Option String) :
    create_player u s nm age ph photo cb tb = unauth s ∧
    bulk_csv u s rows gen = unauth s ∧
    add_metric u s pid ev = unauth s ∧
    add_note u s pid txt share = unauth s ∧
    toggle_star u s pid = unauth s ∧
    upload_drill u s fn tb = unauth s ∧
    send_drill u s env err pid fn title alsoText = unauth s := by
  match u with
  | none =>
    exact ⟨rfl, rfl, rfl, rfl, rfl, rfl, rfl⟩
  | some (.player i n) =>
    exact ⟨rfl, rfl, rfl, rfl, rfl, rfl, rfl⟩
  | some (.instructor i n) =>
    simp [isInstr] at hu

/-- C1 witness: with an anonymous session, all seven mutating handlers are
inert on a concrete store. -/
theorem mutating_ops_require_instructor_witness :
    isInstr none = false ∧
    create_player none { tick := 5 } "Ann" none none none [1] [2] = unauth { tick := 5 } ∧
    toggle_star none { tick := 5 } 3 = unauth { tick := 5 } := by
  refine ⟨by decide, ?_, ?_⟩
  · exact (mutating_ops_require_instructor none { tick := 5 } (by decide)
      "Ann" none none none [1] [2] [] (fun _ => []) 3 0 "" false "" none false
      ⟨"", "", ""⟩ none).1
  · exact (mutating_ops_require_instructor none { tick := 5 } (by decide)
      "Ann" none none none [1] [2] [] (fun _ => []) 3 0 "" false "" none false
      ⟨"", "", ""⟩ none).2.2.2.2.1

/-- A one-player store for concrete runs: player 1 has a phone number. -/
def demoStore : Store :=
  { players := [⟨1, "Al", none, "ABC123", "5551234", none, 1⟩], tick := 2 }

/-- A fully configured Twilio environment. -/
def demoEnv : Env := ⟨"sid", "tok", "+15550000"⟩

/-- C2. The `/text/send` handler never consults the session: invoked with no
identity at all, and likewise with a Player identity, it still hands the
message to the SMS gateway and reports success — the operation neither fails
nor withholds the send, contradicting the spec's requirement that SendText
be performed only for an authenticated Instructor caller. -/
theorem text_send_bypasses_auth :
    (text_player none demoStore demoEnv none 1 "hi").sent
        = [⟨"hi", "+15550000", "5551234"⟩] ∧
    (text_player none demoStore demoEnv none 1 "hi").flash
        = some ⟨"ok", "Text sent."⟩ ∧
    (text_player (some (.player 1 "Al")) demoStore demoEnv none 1 "hi")
        = text_player none demoStore demoEnv none 1 "hi" := by
  exact ⟨rfl, rfl, rfl⟩

/-- A store whose only player already holds the code that the next
`secrets.token_hex(3).upper()` call will produce from bytes `AA BB CC`. -/
def collisionStore : Store :=
  { players := [⟨1, "Al", none, "AABBCC", "", none, 1⟩], tick := 2 }

/-- C8. When the freshly generated player code collides with an existing one,
CreatePlayer does not retry with a new code: the `UNIQUE` constraint fires at
commit, the request dies with an unhandled `IntegrityError`, and no row is
inserted.  (The bulk-import loop at lines 229-237 has the same shape: one
generation per row, no retry, a single commit.) -/
theorem create_player_code_collision_crashes :
    (create_player (some (.instructor 1 "Coach")) collisionStore
        "Bob" none none none [170, 187, 204] []).resp = .integrityError ∧
    (create_player (some (.instructor 1 "Coach")) collisionStore
        "Bob" none none none [170, 187, 204] []).store.players
      = collisionStore.players := by
  exact ⟨rfl, rfl⟩

/-- C9 counterexample. A ShareDrill call with `alsoText` set, a configured
gateway, a player with a phone, and a gateway send that raises: the drill row
is appended and the operation succeeds, but the SMS failure is NOT reported
as a warning — the caller receives the ordinary success flash and nothing
else. -/
theorem share_drill_sms_failure_no_warning :
    (send_drill (some (.instructor 1 "Coach")) demoStore demoEnv
        (some "boom") 1 "d.mp4" (some "Tee work") true).resp
      = .redirect "/instructor" ∧
    (send_drill (some (.instructor 1 "Coach")) demoStore demoEnv
        (some "boom") 1 "d.mp4" (some "Tee work") true).store.drills.length = 1 ∧
    (send_drill (some (.instructor 1 "Coach")) demoStore demoEnv
        (some "boom") 1 "d.mp4" (some "Tee work") true).flash
      = some ⟨"ok", "Drill shared with player."⟩ ∧
    (send_drill (some (.instructor 1 "Coach")) demoStore demoEnv
        (some "boom") 1 "d.mp4" (some "Tee work") true).sent = [] := by
  exact ⟨rfl, rfl, rfl, rfl⟩

/-- C9 (amended). For every ShareDrill call by an Instructor with `alsoText`
set, the SharedDrill row is appended and the operation completes successfully
— redirect plus the ordinary success flash — whether or not the SMS gateway
send raises; a send failure is silently swallowed (no message is sent and no
warning is surfaced). -/
theorem share_drill_succeeds_despite_sms_failure (s : Store) (iid : Nat)
    (nm : String) (env : Env) (err : Option String) (pid : Nat)
    (fn : String) (title : Option String) :
    (send_drill (some (.instructor iid nm)) s env err pid fn title true).resp
      = .redirect "/instructor" ∧
    (send_drill (some (.instructor iid nm)) s env err pid fn title true).flash
      = some ⟨"ok", "Drill shared with player."⟩ ∧
    (send_drill (some (.instructor iid nm)) s env err pid fn title true).store.drills
      = s.drills ++ [⟨s.tick, pid, iid, fn, title, s.tick⟩] ∧
    (err = some "boom" →
      (send_drill (some (.instructor iid nm)) s env err pid fn title true).sent = []) := by
  refine ⟨rfl, rfl, rfl, ?_⟩
  rintro rfl
  simp only [send_drill]
  simp
  intro _
  split <;> rfl

/-- C3. ToggleStar is an involution.  In any store satisfying the stars
table's `UNIQUE (instructor_id, player_id)` constraint, two successive
ToggleStar calls by instructor `i` on player `pid` restore the Star table's
state for the pair — the number of rows for `(i, pid)` is back to its
original value — and restore `i`'s star count; and starting from a state
where the pair has no star and `i` has no stars at all, the first call
answers `active=true, count=1` and the second `active=false, count=0`. -/
theorem toggle_star_involution (s : Store) (i : Nat) (nm : String) (pid : Nat)
    (hs : StarUnique s) :
    ((toggle_star (some (.instructor i nm))
        (toggle_star (some (.instructor i nm)) s pid).store pid).store.stars.countP
          (fun st => st.instructorId == i && st.playerId == pid)
        = s.stars.countP (fun st => st.instructorId == i && st.playerId == pid))
    ∧ ((toggle_star (some (.instructor i nm))
        (toggle_star (some (.instructor i nm)) s pid).store pid).store.stars.countP
          (fun st => st.instructorId == i)
        = s.stars.countP (fun st => st.instructorId == i))
    ∧ (s.stars.countP (fun st => st.instructorId == i && st.playerId == pid) = 0 →
       s.stars.countP (fun st => st.instructorId == i) = 0 →
       (toggle_star (some (.instructor i nm)) s pid).resp = .starJson true 1 ∧
       (toggle_star (some (.instructor i nm))
          (toggle_star (some (.instructor i nm)) s pid).store pid).resp
         = .starJson false 0) := by
  rcases hfind : s.stars.find? (fun st => st.instructorId == i && st.playerId == pid)
      with _ | ex
  · -- pair absent: the first call inserts a row, the second deletes it again
    have hcp0 : s.stars.countP (fun st => st.instructorId == i && st.playerId == pid) = 0 := by
      rw [List.countP_eq_zero]
      intro x hx
      exact fun hpx => (List.find?_eq_none.mp hfind x hx) hpx
    have hpnew : ((⟨s.tick, i, pid, s.tick⟩ : StarR).instructorId == i &&
        (⟨s.tick, i, pid, s.tick⟩ : StarR).playerId == pid) = true := by simp
    have hfind2 : (s.stars ++ [(⟨s.tick, i, pid, s.tick⟩ : StarR)]).find?
        (fun st => st.instructorId == i && st.playerId == pid)
        = some ⟨s.tick, i, pid, s.tick⟩ := by
      rw [find?_append_of_none _ _ _ hfind]
      exact List.find?_cons_of_pos _ hpnew
    have hrm_p := removeFirst_countP
      (fun st => st.instructorId == i && st.playerId == pid)
      (fun st => st.instructorId == i && st.playerId == pid)
      (⟨s.tick, i, pid, s.tick⟩ : StarR) hpnew _ hfind2
    have hrm_q := removeFirst_countP
      (fun st => st.instructorId == i && st.playerId == pid)
      (fun st => st.instructorId == i)
      (⟨s.tick, i, pid, s.tick⟩ : StarR) (by simp) _ hfind2
    have happ_p : (s.stars ++ [(⟨s.tick, i, pid, s.tick⟩ : StarR)]).countP
        (fun st => st.instructorId == i && st.playerId == pid)
        = s.stars.countP (fun st => st.instructorId == i && st.playerId == pid) + 1 := by
      simp [List.countP_append]
    have happ_q : (s.stars ++ [(⟨s.tick, i, pid, s.tick⟩ : StarR)]).countP
        (fun st => st.instructorId == i)
        = s.stars.countP (fun st => st.instructorId == i) + 1 := by
      simp [List.countP_append]
    simp only [toggle_star, hfind, hfind2]
    refine ⟨by omega, by omega, ?_⟩
    intro _ hq0
    have hc1 : (s.stars ++ [(⟨s.tick, i, pid, s.tick⟩ : StarR)]).countP
        (fun st => st.instructorId == i) = 1 := by omega
    have hc2 : (removeFirst (fun st => st.instructorId == i && st.playerId == pid)
        (s.stars ++ [(⟨s.tick, i, pid, s.tick⟩ : StarR)])).countP
          (fun st => st.instructorId == i) = 0 := by omega
    rw [hc1, hc2]
    exact ⟨rfl, rfl⟩
  · -- pair present: the first call deletes that row, the second re-inserts
    have hpx : (ex.instructorId == i && ex.playerId == pid) = true := by
      have h := List.find?_some hfind
      exact h
    have hqx : (ex.instructorId == i) = true := by
      simp only [Bool.and_eq_true] at hpx
      exact hpx.1
    have hcp1 : s.stars.countP (fun st => st.instructorId == i && st.playerId == pid) = 1 := by
      have hle := hs i pid
      have hge := find?_some_countP_pos
        (fun st => st.instructorId == i && st.playerId == pid) s.stars ex hfind
      omega
    have hrm_p := removeFirst_countP
      (fun st => st.instructorId == i && st.playerId == pid)
      (fun st => st.instructorId == i && st.playerId == pid) ex hpx _ hfind
    have hrm_q := removeFirst_countP
      (fun st => st.instructorId == i && st.playerId == pid)
      (fun st => st.instructorId == i) ex hqx _ hfind
    have hcp0' : (removeFirst (fun st => st.instructorId == i && st.playerId == pid)
        s.stars).countP (fun st => st.instructorId == i && st.playerId == pid) = 0 := by
      omega
    have hfind2 : (removeFirst (fun st => st.instructorId == i && st.playerId == pid)
        s.stars).find? (fun st => st.instructorId == i && st.playerId == pid) = none :=
      countP_zero_find?_none _ _ hcp0'
    simp only [toggle_star, hfind, hfind2]
    have happ_p : ((removeFirst (fun st => st.instructorId == i && st.playerId == pid)
        s.stars) ++ [(⟨s.tick, i, pid, s.tick⟩ : StarR)]).countP
          (fun st => st.instructorId == i && st.playerId == pid)
        = 1 := by
      simp [List.countP_append, hcp0']
    have happ_q : ((removeFirst (fun st => st.instructorId == i && st.playerId == pid)
        s.stars) ++ [(⟨s.tick, i, pid, s.tick⟩ : StarR)]).countP
          (fun st => st.instructorId == i)
        = (removeFirst (fun st => st.instructorId == i && st.playerId == pid)
            s.stars).countP (fun st => st.instructorId == i) + 1 := by
      simp [List.countP_append]
    refine ⟨by omega, by omega, ?_⟩
    intro habs _
    omega

/-- C3 witness: on a concrete starless store, toggling twice answers
`active=true,count=1` then `active=false,count=0`. -/
theorem toggle_star_involution_witness :
    (toggle_star (some (.instructor 1 "C")) demoStore 9).resp = .starJson true 1 ∧
    (toggle_star (some (.instructor 1 "C"))
        (toggle_star (some (.instructor 1 "C")) demoStore 9).store 9).resp
      = .starJson false 0 := by
  have hs : StarUnique demoStore := by
    intro i p
    simp [demoStore]
  exact (toggle_star_involution demoStore 1 "C" 9 hs).2.2 (by simp [demoStore]) (by simp [demoStore])

theorem latestByCreated_cons_isSome (y : NoteR) (ys : List NoteR) :
    (latestByCreated (y :: ys)).isSome := by
  rw [latestByCreated]
  rcases latestByCreated ys with _ | m
  · simp
  · by_cases h : y.createdAt < m.createdAt <;> simp [h]

theorem latestByCreated_spec :
    ∀ l : List NoteR, ∀ n : NoteR, latestByCreated l = some n →
      n ∈ l ∧ ∀ m ∈ l, m.createdAt ≤ n.createdAt := by
  intro l
  induction l with
  | nil => intro n h; simp [latestByCreated] at h
  | cons x xs ih =>
    intro n h
    rcases hm : latestByCreated xs with _ | m
    · simp only [latestByCreated, hm] at h
      obtain rfl : x = n := by injection h
      have hxs : xs = [] := by
        cases xs with
        | nil => rfl
        | cons y ys =>
          have hys := latestByCreated_cons_isSome y ys
          rw [hm] at hys
          simp at hys
      subst hxs
      exact ⟨List.mem_singleton.mpr rfl, by simp⟩
    · obtain ⟨hmem, hbound⟩ := ih m hm
      simp only [latestByCreated, hm] at h
      by_cases hlt : x.createdAt < m.createdAt
      · rw [if_pos hlt] at h
        obtain rfl : m = n := by injection h
        refine ⟨List.mem_cons_of_mem _ hmem, ?_⟩
        intro m' hm'
        rcases List.mem_cons.mp hm' with rfl | hm''
        · omega
        · exact hbound m' hm''
      · rw [if_neg hlt] at h
        obtain rfl : x = n := by injection h
        refine ⟨List.mem_cons_self _ _, ?_⟩
        intro m' hm'
        rcases List.mem_cons.mp hm' with rfl | hm''
        · omega
        · have := hbound m' hm''
          omega

theorem latestByCreated_append_latest (x : NoteR) :
    ∀ l : List NoteR, (∀ m ∈ l, m.createdAt < x.createdAt) →
      latestByCreated (l ++ [x]) = some x := by
  intro l
  induction l with
  | nil => intro _; rfl
  | cons y ys ih =>
    intro h
    have hys := ih (fun m hm => h m (List.mem_cons_of_mem _ hm))
    have hy := h y (List.mem_cons_self _ _)
    rw [List.cons_append]
    simp only [latestByCreated, hys]
    rw [if_pos hy]

/-- C7. The note shown on player `pid`'s dashboard is always the most recent
shared note: whenever the dashboard query answers a note, that note is a
shared (`shared_with_player=true`) note of `pid` and no shared note of `pid`
is newer; AddNote with `shareWithPlayer=false` leaves the dashboard note
unchanged; and AddNote with `shareWithPlayer=true` on a clock-sound store
makes the dashboard show exactly the new note. -/
theorem dashboard_note_sharing (s : Store) (pid iid : Nat) (nm txt : String) :
    (∀ n, dashboard_shared_note s pid = some n →
       n.sharedWithPlayer = true ∧ n ∈ s.notes ∧ n.playerId = pid ∧
       ∀ m ∈ s.notes, m.playerId = pid → m.sharedWithPlayer = true →
         m.createdAt ≤ n.createdAt)
    ∧ dashboard_shared_note
        ((add_note (some (.instructor iid nm)) s pid txt false).store) pid
        = dashboard_shared_note s pid
    ∧ (TimeOk s →
       dashboard_shared_note
           ((add_note (some (.instructor iid nm)) s pid txt true).store) pid
         = some ⟨s.tick, pid, iid, pyStrip txt, true, s.tick⟩) := by
  refine ⟨?_, ?_, ?_⟩
  · intro n hn
    obtain ⟨hmem, hbound⟩ := latestByCreated_spec _ n hn
    have hn' := List.mem_filter.mp hmem
    have hflags : (n.playerId == pid && n.sharedWithPlayer) = true := hn'.2
    simp only [Bool.and_eq_true, beq_iff_eq] at hflags
    refine ⟨hflags.2, hn'.1, hflags.1, ?_⟩
    intro m hm hmp hms
    exact hbound m (List.mem_filter.mpr ⟨hm, by simp [hmp, hms]⟩)
  · have hfil : List.filter (fun n => n.playerId == pid && n.sharedWithPlayer)
        [(⟨s.tick, pid, iid, pyStrip txt, false, s.tick⟩ : NoteR)] = [] := by simp
    simp only [dashboard_shared_note, add_note, List.filter_append, hfil,
      List.append_nil]
  · intro ht
    have hfil : List.filter (fun n => n.playerId == pid && n.sharedWithPlayer)
        [(⟨s.tick, pid, iid, pyStrip txt, true, s.tick⟩ : NoteR)]
        = [⟨s.tick, pid, iid, pyStrip txt, true, s.tick⟩] := by simp
    simp only [dashboard_shared_note, add_note, List.filter_append, hfil]
    refine latestByCreated_append_latest _ _ ?_
    intro m hm
    exact ht m (List.mem_filter.mp hm).1

/-- C7 witness.  A concrete clock-sound store with one stale shared note:
adding a shared note makes it the dashboard note. -/
theorem dashboard_note_sharing_witness :
    TimeOk { notes := [⟨0, 1, 2, "old", true, 0⟩], tick := 1 } ∧
    dashboard_shared_note
        ((add_note (some (.instructor 2 "C"))
          { notes := [⟨0, 1, 2, "old", true, 0⟩], tick := 1 } 1 " hi " true).store) 1
      = some ⟨1, 1, 2, "hi", true, 1⟩ := by
  have ht : TimeOk { notes := [⟨0, 1, 2, "old", true, 0⟩], tick := 1 } := by
    intro n hn
    simp at hn
    subst hn
    decide
  refine ⟨ht, ?_⟩
  have h := (dashboard_note_sharing
    { notes := [⟨0, 1, 2, "old", true, 0⟩], tick := 1 } 1 2 "C" " hi ").2.2 ht
  have htrim : pyStrip " hi " = "hi" := by decide
  rw [htrim] at h
  exact h

theorem bulkNew_spec (gen : Nat → List Nat) :
    ∀ (rows : List Row) (t k : Nat),
      ((bulkNew gen t k rows).map (·.name)
        = (rows.filter (fun r => !(csvName r == ""))).map csvName)
      ∧ ((bulkNew gen t k rows).map (·.age)
        = (rows.filter (fun r => !(csvName r == ""))).map csvAge)
      ∧ (bulkNew gen t k rows).length
        = (rows.filter (fun r => !(csvName r == ""))).length := by
  intro rows
  induction rows with
  | nil => intro t k; exact ⟨rfl, rfl, rfl⟩
  | cons r rs ih =>
    intro t k
    by_cases h : csvName r = ""
    · simpa [bulkNew, h, List.filter_cons] using ih t k
    · obtain ⟨ih1, ih2, ih3⟩ := ih (t + 1) (k + 1)
      simp [bulkNew, h, List.filter_cons, ih1, ih2, ih3]

/-- C6. For every imported row list, BulkImportPlayers inserts exactly one
player per row whose `name`/`Name` cell is non-empty after stripping, in
order, skipping every row without such a name; the age cell is stored as an
integer exactly when it is digits-only and as null otherwise; and the
reported count equals the number of rows inserted.  (The hypothesis is the
success of the batch commit: the generated codes collide neither with
existing ones nor with each other.) -/
theorem bulk_import_rows (s : Store) (rows : List Row) (gen : Nat → List Nat)
    (iid : Nat) (nm : String)
    (hfresh : freshCodes (s.players.map (·.code))
        ((bulkNew gen s.tick 0 rows).map (·.code)) = true) :
    ((bulk_csv (some (.instructor iid nm)) s rows gen).store.players.map (·.name)
       = s.players.map (·.name)
         ++ (rows.filter (fun r => !(csvName r == ""))).map csvName)
    ∧ ((bulk_csv (some (.instructor iid nm)) s rows gen).store.players.map (·.age)
       = s.players.map (·.age)
         ++ (rows.filter (fun r => !(csvName r == ""))).map csvAge)
    ∧ (bulk_csv (some (.instructor iid nm)) s rows gen).store.players.length
       = s.players.length + (rows.filter (fun r => !(csvName r == ""))).length
    ∧ (bulk_csv (some (.instructor iid nm)) s rows gen).flash
       = some ⟨"ok", "Imported "
           ++ toString (rows.filter (fun r => !(csvName r == ""))).length
           ++ " players."⟩
    ∧ (bulk_csv (some (.instructor iid nm)) s rows gen).resp
       = .redirect "/instructor" := by
  obtain ⟨h1, h2, h3⟩ := bulkNew_spec gen rows s.tick 0
  simp only [bulk_csv, hfresh, if_pos]
  refine ⟨?_, ?_, ?_, ?_, by trivial⟩
  · simp [List.map_append, h1]
  · simp [List.map_append, h2]
  · simp [List.length_append, h3]
  · simp [h3]

/-- C6 witness: a concrete three-row import — one valid row with a digit
age, one row with an empty name (skipped), one valid row under the
alternative `Name`/`Age` headers with a non-digit age (stored null). -/
theorem bulk_import_rows_witness :
    ((bulk_csv (some (.instructor 1 "C")) { tick := 0 }
        [[("name", " Ann "), ("age", "12")], [("name", "")],
         [("Name", "Bo"), ("Age", "x")]] (fun k => [k, k, k])).store.players.map (·.name)
      = ["Ann", "Bo"])
    ∧ ((bulk_csv (some (.instructor 1 "C")) { tick := 0 }
        [[("name", " Ann "), ("age", "12")], [("name", "")],
         [("Name", "Bo"), ("Age", "x")]] (fun k => [k, k, k])).store.players.map (·.age)
      = [some 12, none])
    ∧ ((bulk_csv (some (.instructor 1 "C")) { tick := 0 }
        [[("name", " Ann "), ("age", "12")], [("name", "")],
         [("Name", "Bo"), ("Age", "x")]] (fun k => [k, k, k])).flash
      = some ⟨"ok", "Imported 2 players."⟩) := by
  have h := bulk_import_rows { tick := 0 }
    [[("name", " Ann "), ("age", "12")], [("name", "")],
     [("Name", "Bo"), ("Age", "x")]] (fun k => [k, k, k]) 1 "C" (by decide)
  exact ⟨h.1.trans (by decide), h.2.1.trans (by decide), h.2.2.2.1.trans (by decide)⟩

theorem flatMap_byteHex_length :
    ∀ bytes : List Nat, (bytes.flatMap byteHex).length = 2 * bytes.length := by
  intro bytes
  induction bytes with
  | nil => rfl
  | cons b bs ih =>
    simp only [List.flatMap_cons, List.length_append, ih, byteHex]
    simp
    omega

theorem gen_code_length (bytes : List Nat) :
    (pyUpper (token_hex bytes)).length = 2 * bytes.length := by
  have h : (pyUpper (token_hex bytes)).length = (bytes.flatMap byteHex).length := by
    simp [pyUpper, token_hex, String.length]
  rw [h, flatMap_byteHex_length]

theorem hexDigit_upperHex : ∀ n < 16, isUpperHex (Char.toUpper (hexDigit n)) = true := by
  decide

theorem gen_code_upperHex (bytes : List Nat) :
    ∀ c ∈ (pyUpper (token_hex bytes)).data, isUpperHex c = true := by
  intro c hc
  simp only [pyUpper, token_hex, List.mem_map] at hc
  obtain ⟨d, hd, rfl⟩ := hc
  simp only [List.mem_flatMap] at hd
  obtain ⟨b, _, hdb⟩ := hd
  simp only [byteHex, List.mem_cons, List.mem_singleton] at hdb
  rcases hdb with rfl | rfl | h
  · exact hexDigit_upperHex _ (Nat.mod_lt _ (by omega))
  · exact hexDigit_upperHex _ (Nat.mod_lt _ (by omega))
  · simp at h

/-- C5 counterexample.  With the master code configured as `"ABCDEF"` — a
6-character uppercase-hex string — and the random generator returning bytes
`AB CD EF`, the bootstrap branch provisions the new instructor with code
`"ABCDEF"`: the freshly generated code EQUALS the master code, refuting the
claimed distinctness. -/
theorem login_master_gen_code_equals_master :
    (login_instructor { tick := 0 } "ABCDEF" (some "Sam") "ABCDEF"
        [171, 205, 239]).store.instructors
      = [⟨0, "Sam", "ABCDEF", 0⟩] ∧
    (login_instructor { tick := 0 } "ABCDEF" (some "Sam") "ABCDEF"
        [171, 205, 239]).flash
      = some ⟨"ok", "Instructor created. Your login code: ABCDEF"⟩ := by
  exact ⟨by decide, by decide⟩

/-- C5 (amended). LoginInstructor with the configured master code, in a state
where no instructor holds that code: with a supplied (truthy) name it creates
exactly one new Instructor — named with the stripped supplied name and
carrying the freshly generated `token_hex(3).upper()` code, a string of six
uppercase-hex characters — authenticates the session as that instructor, and
surfaces the generated code in the flash message; the generated code is
distinct from the master code PROVIDED the master code is not itself a
6-character uppercase-hex string (as with the default `"COACH123"`), and
provided the generated code does not collide with an existing instructor
code (otherwise the commit raises).  With the master code and no name, the
login fails with the invalid-credential flash and creates nothing. -/
theorem master_code_bootstrap (s : Store) (code master nmSup : String)
    (bytes : List Nat)
    (hcode : pyStrip code = master)
    (habs : ∀ i ∈ s.instructors, i.code ≠ master)
    (hb : bytes.length = 3)
    (hnm : nmSup ≠ "")
    (hfresh : ∀ i ∈ s.instructors, i.code ≠ pyUpper (token_hex bytes)) :
    ((login_instructor s code (some nmSup) master bytes).store.instructors
       = s.instructors
           ++ [⟨s.tick, pyStrip nmSup, pyUpper (token_hex bytes), s.tick⟩])
    ∧ (pyUpper (token_hex bytes)).length = 6
    ∧ (∀ c ∈ (pyUpper (token_hex bytes)).data, isUpperHex c = true)
    ∧ (login_instructor s code (some nmSup) master bytes).flash
       = some ⟨"ok", "Instructor created. Your login code: "
                       ++ pyUpper (token_hex bytes)⟩
    ∧ (login_instructor s code (some nmSup) master bytes).setUser
       = some (some (.instructor s.tick (pyStrip nmSup)))
    ∧ (¬ (master.length = 6 ∧ ∀ c ∈ master.data, isUpperHex c = true) →
        pyUpper (token_hex bytes) ≠ master)
    ∧ ((login_instructor s code none master bytes).store = s
       ∧ (login_instructor s code none master bytes).flash
           = some ⟨"warn", "Invalid instructor code."⟩
       ∧ (login_instructor s code none master bytes).setUser = none) := by
  have hfind : s.instructors.find? (fun i => i.code == master) = none := by
    rw [List.find?_eq_none]
    intro i hi
    simp [habs i hi]
  have hnem : ¬∃ a ∈ s.instructors, a.code = pyUpper (token_hex bytes) := by
    rintro ⟨i, hi, hic⟩
    exact hfresh i hi hic
  have hlen : (pyUpper (token_hex bytes)).length = 6 := by
    rw [gen_code_length, hb]
  refine ⟨?_, hlen, gen_code_upperHex bytes, ?_, ?_, ?_, ?_, ?_, ?_⟩
  · simp [login_instructor, hfind, hcode, nameTruthy, hnm, hnem, nameOrCoach]
  · simp [login_instructor, hfind, hcode, nameTruthy, hnm, hnem, nameOrCoach]
  · simp [login_instructor, hfind, hcode, nameTruthy, hnm, hnem, nameOrCoach]
  · intro hnot heq
    refine hnot ⟨?_, ?_⟩
    · rw [← heq, hlen]
    · intro c hc
      rw [← heq] at hc
      exact gen_code_upperHex bytes c hc
  · simp [login_instructor, hfind, hcode, nameTruthy]
  · simp [login_instructor, hfind, hcode, nameTruthy]
  · simp [login_instructor, hfind, hcode, nameTruthy]

/-- C5 witness: with the default master code `"COACH123"` on an empty store,
bytes `01 02 03`, and name `"Sam"`, the bootstrap creates instructor
`⟨0, "Sam", "010203", 0⟩`, flashes the code, logs the session in — and the
generated code differs from the master code. -/
theorem master_code_bootstrap_witness :
    ((login_instructor { tick := 0 } "COACH123" (some "Sam") "COACH123"
        [1, 2, 3]).store.instructors = [⟨0, "Sam", "010203", 0⟩])
    ∧ (login_instructor { tick := 0 } "COACH123" (some "Sam") "COACH123"
        [1, 2, 3]).flash
       = some ⟨"ok", "Instructor created. Your login code: 010203"⟩
    ∧ pyUpper (token_hex [1, 2, 3]) ≠ "COACH123"
    ∧ ((login_instructor { tick := 0 } "COACH123" none "COACH123"
        [1, 2, 3]).store = { tick := 0 }
       ∧ (login_instructor { tick := 0 } "COACH123" none "COACH123"
        [1, 2, 3]).flash = some ⟨"warn", "Invalid instructor code."⟩) := by
  have h := master_code_bootstrap { tick := 0 } "COACH123" "COACH123" "Sam"
    [1, 2, 3] (by decide) (by simp) (by decide) (by decide) (by simp)
  refine ⟨h.1.trans (by decide), h.2.2.2.1.trans (by decide), ?_, h.2.2.2.2.2.2.1,
    h.2.2.2.2.2.2.2.1⟩
  exact h.2.2.2.2.2.1 (by decide)

/-- C9 witness: concrete instantiation of the amended ShareDrill property
with a raising gateway. -/
theorem share_drill_succeeds_despite_sms_failure_witness :
    (send_drill (some (.instructor 1 "C")) demoStore demoEnv (some "boom")
        1 "d.mp4" none true).resp = .redirect "/instructor" ∧
    (send_drill (some (.instructor 1 "C")) demoStore demoEnv (some "boom")
        1 "d.mp4" none true).sent = [] := by
  have h := share_drill_succeeds_despite_sms_failure demoStore 1 "C" demoEnv
    (some "boom") 1 "d.mp4" none
  exact ⟨h.1, h.2.2.2 rfl⟩

/-- C10. Rendering the instructor workspace page (`GET /instructor`) runs
`ensure_master`: when no instructor row holds the configured master code, an
Instructor named "Head Coach" whose login code IS the master code is
created; consequently, on the resulting store, plain LoginInstructor with
the master code — with or without a name — authenticates as that registered
instructor, creates nothing, sets no flash, and never reaches the master-code
bootstrap branch. -/
theorem master_page_provisioning (s : Store) (master code : String)
    (name : Option String) (bytes : List Nat)
    (hcode : pyStrip code = master) :
    ((∀ i ∈ s.instructors, i.code ≠ master) →
       (ensure_master s master).instructors
         = s.instructors ++ [⟨s.tick, "Head Coach", master, s.tick⟩])
    ∧ ∃ j, (ensure_master s master).instructors.find? (fun i => i.code == master)
          = some j
        ∧ login_instructor (ensure_master s master) code name master bytes
          = ⟨.redirect "/instructor", ensure_master s master, none, [],
             some (some (.instructor j.id j.name))⟩ := by
  constructor
  · intro habs
    have hfind : s.instructors.find? (fun i => i.code == master) = none := by
      rw [List.find?_eq_none]
      intro i hi
      simp [habs i hi]
    simp [ensure_master, hfind]
  · rcases hfind : s.instructors.find? (fun i => i.code == master) with _ | j
    · have hfind2 : (s.instructors
          ++ [(⟨s.tick, "Head Coach", master, s.tick⟩ : InstructorR)]).find?
            (fun i => i.code == master)
          = some ⟨s.tick, "Head Coach", master, s.tick⟩ := by
        rw [find?_append_of_none _ _ _ hfind]
        exact List.find?_cons_of_pos _ (by simp)
      refine ⟨⟨s.tick, "Head Coach", master, s.tick⟩, ?_, ?_⟩
      · simp only [ensure_master, hfind]
        exact hfind2
      · simp only [login_instructor, ensure_master, hfind, hcode, hfind2]
    · refine ⟨j, ?_, ?_⟩
      · simp only [ensure_master, hfind]
      · simp only [login_instructor, ensure_master, hfind, hcode]

/-- C10 witness: on an empty store, visiting the instructor page provisions
`⟨0, "Head Coach", "COACH123", 0⟩`, and a subsequent plain master-code login
(no name) authenticates as that instructor without creating anything. -/
theorem master_page_provisioning_witness :
    (ensure_master { tick := 0 } "COACH123").instructors
      = [⟨0, "Head Coach", "COACH123", 0⟩]
    ∧ login_instructor (ensure_master { tick := 0 } "COACH123") "COACH123" none
        "COACH123" []
      = ⟨.redirect "/instructor", ensure_master { tick := 0 } "COACH123", none, [],
         some (some (.instructor 0 "Head Coach"))⟩ := by
  have h := master_page_provisioning { tick := 0 } "COACH123" "COACH123" none []
    (by decide)
  refine ⟨(h.1 (by simp)).trans (by decide), ?_⟩
  obtain ⟨j, hj, hlogin⟩ := h.2
  have hv : (ensure_master { tick := 0 } "COACH123").instructors.find?
      (fun i => i.code == "COACH123") = some ⟨0, "Head Coach", "COACH123", 0⟩ := by
    decide
  have hjv : (⟨0, "Head Coach", "COACH123", 0⟩ : InstructorR) = j := by
    have := hv.symm.trans hj
    injection this
  rw [← hjv] at hlogin
  exact hlogin

theorem nodup_append_single [DecidableEq α] (l : List α) (c : α)
    (hl : l.Nodup) (hc : c ∉ l) : (l ++ [c]).Nodup := by
  rw [List.nodup_append]
  refine ⟨hl, List.nodup_singleton c, ?_⟩
  intro a ha hb
  rw [List.mem_singleton] at hb
  subst hb
  exact hc ha

theorem nodup_append_fresh (ex cs : List String) (hex : ex.Nodup)
    (h : freshCodes ex cs = true) : (ex ++ cs).Nodup := by
  obtain ⟨h1, h2⟩ := freshCodes_spec ex cs h
  rw [List.nodup_append]
  exact ⟨hex, h1, fun a ha hb => h2 a hb ha⟩

theorem text_player_store (u : Option Principal) (s : Store) (env : Env)
    (err : Option String) (pid : Nat) (body : String) :
    (text_player u s env err pid body).store = s := by
  simp only [text_player]
  split
  · rfl
  · split
    · split
      · split <;> rfl
      · rfl
    · rfl

theorem applyOp_codes_unique (s : Store) (op : Op) (h : CodesUnique s) :
    CodesUnique (applyOp s op) := by
  obtain ⟨hp, hi⟩ := h
  cases op with
  | opCreatePlayer u nm age ph photo cb tb =>
    rcases u with _ | p
    · exact ⟨hp, hi⟩
    rcases p with ⟨pi, pn⟩ | ⟨ii, inm⟩
    · exact ⟨hp, hi⟩
    simp only [applyOp, create_player]
    split
    · exact ⟨hp, hi⟩
    · rename_i hc
      refine ⟨?_, hi⟩
      have hmem : pyUpper (token_hex cb) ∉ s.players.map (·.code) := by
        simpa using hc
      have hnd := nodup_append_single _ _ hp hmem
      simpa [List.map_append] using hnd
  | opBulkCsv u rows gen =>
    rcases u with _ | p
    · exact ⟨hp, hi⟩
    rcases p with ⟨pi, pn⟩ | ⟨ii, inm⟩
    · exact ⟨hp, hi⟩
    simp only [applyOp, bulk_csv]
    split
    · rename_i hc
      refine ⟨?_, hi⟩
      have hnd := nodup_append_fresh _ _ hp hc
      simpa [List.map_append] using hnd
    · exact ⟨hp, hi⟩
  | opAddMetric u pid ev =>
    rcases u with _ | p
    · exact ⟨hp, hi⟩
    rcases p with ⟨pi, pn⟩ | ⟨ii, inm⟩ <;> exact ⟨hp, hi⟩
  | opAddNote u pid txt share =>
    rcases u with _ | p
    · exact ⟨hp, hi⟩
    rcases p with ⟨pi, pn⟩ | ⟨ii, inm⟩ <;> exact ⟨hp, hi⟩
  | opToggleStar u pid =>
    rcases u with _ | p
    · exact ⟨hp, hi⟩
    rcases p with ⟨pi, pn⟩ | ⟨ii, inm⟩
    · exact ⟨hp, hi⟩
    simp only [applyOp, toggle_star]
    split <;> exact ⟨hp, hi⟩
  | opUploadDrill u fn tb =>
    rcases u with _ | p
    · exact ⟨hp, hi⟩
    rcases p with ⟨pi, pn⟩ | ⟨ii, inm⟩ <;> exact ⟨hp, hi⟩
  | opSendDrill u env err pid fn title alsoText =>
    rcases u with _ | p
    · exact ⟨hp, hi⟩
    rcases p with ⟨pi, pn⟩ | ⟨ii, inm⟩ <;> exact ⟨hp, hi⟩
  | opTextPlayer u env err pid body =>
    simp only [applyOp]
    rw [text_player_store]
    exact ⟨hp, hi⟩
  | opLoginPlayer code =>
    simp only [applyOp, login_player]
    split <;> exact ⟨hp, hi⟩
  | opLoginInstructor code name master bytes =>
    simp only [applyOp, login_instructor]
    split
    · exact ⟨hp, hi⟩
    · split
      · split
        · exact ⟨hp, hi⟩
        · rename_i hc
          refine ⟨hp, ?_⟩
          have hmem : pyUpper (token_hex bytes) ∉ s.instructors.map (·.code) := by
            simpa using hc
          have hnd := nodup_append_single _ _ hi hmem
          simpa [List.map_append] using hnd
      · exact ⟨hp, hi⟩
  | opLogout =>
    exact ⟨hp, hi⟩
  | opVisitInstructorPage master =>
    simp only [applyOp, ensure_master]
    split
    · exact ⟨hp, hi⟩
    · rename_i hf
      refine ⟨hp, ?_⟩
      have hmem : master ∉ s.instructors.map (·.code) := by
        simp only [List.mem_map]
        rintro ⟨i, hmem', hic⟩
        have := List.find?_eq_none.mp hf i hmem'
        simp [hic] at this
      have hnd := nodup_append_single _ _ hi hmem
      simpa [List.map_append] using hnd

/-- C4. Code uniqueness is an invariant of every reachable store state:
starting from any state whose player codes and instructor codes are
duplicate-free, after ANY sequence of requests — CreatePlayer,
BulkImportPlayers, master-code instructor provisioning (LoginInstructor
bootstrap and the instructor-page `ensure_master`), and all the other
handlers — no two Player rows share a code and no two Instructor rows share
a code. -/
theorem code_uniqueness_invariant (ops : List Op) (s : Store)
    (h : CodesUnique s) : CodesUnique (applyOps s ops) := by
  induction ops generalizing s with
  | nil => exact h
  | cons op ops ih => exact ih (applyOp s op) (applyOp_codes_unique s op h)

/-- C4 witness: a concrete request sequence from the empty store — master
bootstrap login, a player creation, a bulk import, and an instructor page
visit — ends in a state with duplicate-free codes. -/
theorem code_uniqueness_invariant_witness :
    CodesUnique (applyOps { tick := 0 }
      [.opLoginInstructor "COACH123" (some "Sam") "COACH123" [1, 2, 3],
       .opCreatePlayer (some (.instructor 0 "Sam")) "Ann" none none none [9, 9, 9] [],
       .opBulkCsv (some (.instructor 0 "Sam")) [[("name", "Bo")]] (fun k => [k, 7, 7]),
       .opVisitInstructorPage "COACH123"]) := by
  exact code_uniqueness_invariant _ _ ⟨by simp, by simp⟩
